import Mathlib

/-!
Verification of the evaluation harness of `apify/apify-mcp-server`
(`src/evals/run_evaluation.py` and `src/evals/create_dataset.py`).

The Python code is shallowly embedded: pure helpers become Lean functions on
`String` / `List`; provider responses and the experiment platform are abstracted
as explicit data / oracle functions; Python `float` accuracies are modelled as
exact rationals `ℚ` (the values occurring here, `correct / total` with small
integers, are exact in both); raising an exception is modelled as `Except.error`;
Python object identity (relevant only to `deepcopy`) is modelled as an explicit
heap of schema cells addressed by `Nat`.
-/

/-! ### Python string primitives

`sorted`, `str.split`, `str.join`, `str.strip` and `str.startswith` are Python
builtins used by the harness; they are embedded here over `List Char`.
Python compares strings lexicographically by code point, which `Char.toNat`
exposes directly. -/

/-- Embedding of Python string comparison `a <= b`: lexicographic by code point,
a strict prefix being smaller. -/
def lexLe : List Char → List Char → Bool
  | [], _ => true
  | _ :: _, [] => false
  | a :: as, b :: bs =>
    if a.toNat < b.toNat then true
    else if b.toNat < a.toNat then false
    else lexLe as bs

/-- Comparison of whole strings by their character lists. -/
def strLe (a b : String) : Bool := lexLe a.data b.data

instance pySortedDecRel : DecidableRel (fun a b : String => strLe a b = true) :=
  fun _ _ => inferInstance

/-- Embedding of Python `sorted` on a list of strings: the sorted-ascending
rearrangement under code-point lexicographic order. -/
def pySorted (l : List String) : List String :=
  List.insertionSort (fun a b => strLe a b = true) l

/-- Embedding of Python `s.split(', ')` (the separator the harness uses):
cut at every non-overlapping occurrence of `", "`, scanning left to right.
`"".split(', ')` is `[""]`, as in Python. -/
def splitCS : List Char → List (List Char)
  | [] => [[]]
  | [c] => [[c]]
  | c :: d :: rest =>
    if c = ',' ∧ d = ' ' then [] :: splitCS rest
    else
      match splitCS (d :: rest) with
      | [] => [[c]]
      | r :: rs => (c :: r) :: rs

/-- Embedding of Python `', '.join` on a list of character lists. -/
def joinCS : List (List Char) → List Char
  | [] => []
  | [l] => l
  | l :: l2 :: ls => l ++ ',' :: ' ' :: joinCS (l2 :: ls)

/-- Embedding of Python `str.strip()`: drop whitespace from both ends.
(Lean's `Char.isWhitespace` covers space, tab, CR and LF; the dataset strings
are ASCII, where this coincides with Python's definition.) -/
def stripChars (l : List Char) : List Char :=
  ((l.dropWhile Char.isWhitespace).reverse.dropWhile Char.isWhitespace).reverse

/-- String-level wrapper for `str.strip()`. -/
def pyStrip (s : String) : String := String.mk (stripChars s.data)

/-- String-level wrapper for `s.split(', ')`. -/
def pySplitCS (s : String) : List String := (splitCS s.data).map String.mk

/-- String-level wrapper for `', '.join(names)`, as `create_dataset` uses it
for the `tool_calls` field (src/evals/create_dataset.py line 49). -/
def pyJoin (names : List String) : String :=
  String.mk (joinCS (names.map String.data))

/-- Embedding of Python `s.startswith(pre)`. -/
def pyStartsWith (s pre : String) : Bool := go s.data pre.data
  where go : List Char → List Char → Bool
  | _, [] => true
  | [], _ :: _ => false
  | c :: cs, p :: ps => decide (c = p) && go cs ps

/-! ### The matcher (`tools_match`, src/evals/run_evaluation.py lines 101-107) -/

/-- Dataset record as the evaluator receives it (`expected: dict`); the code
reads `expected.get('tool_calls', '')`, so the field is optional with default
`''`. -/
structure ExpectedRecord where
  tool_calls : Option String

/-- Parsing of the expected side inside `tools_match`:
`expected_tools = tool_calls.split(', ') if tool_calls else []` followed by
`[tool.strip() for tool in expected_tools if tool.strip()]`. -/
def parse_expected_tools (tool_calls : String) : List String :=
  let expected_tools := if tool_calls ≠ "" then pySplitCS tool_calls else []
  (expected_tools.filter (fun tool => pyStrip tool ≠ "")).map pyStrip

/-- Embedding of `tools_match`: `sorted(expected_tools) == sorted(output)`. -/
def tools_match (expected : ExpectedRecord) (output : List String) : Bool :=
  let tool_calls := expected.tool_calls.getD ""
  let expected_tools := parse_expected_tools tool_calls
  decide (pySorted expected_tools = pySorted output)

/-! ### Provider adapters (src/evals/run_evaluation.py lines 56-98)

Only the decision logic is embedded: how a provider response is turned into the
list of observed tool names, and (for the Anthropic variant) the shape of the
request.  The network round-trip itself is the external collaborator. -/

/-- Nested `function` object of an OpenAI tool-call response entry. -/
structure OpenAIFunction where
  name : String

/-- One entry of `response.choices[0].message.tool_calls`. -/
structure OpenAIToolCall where
  function : OpenAIFunction

/-- Tool-name extraction of `create_openai_task` (lines 70-74):
`tool_calls = []` then `if response.choices[0].message.tool_calls:
tool_calls.append(response.choices[0].message.tool_calls[0].function.name)`.
The `tool_calls` attribute is `None` or a list; Python truthiness treats `None`
and the empty list alike, and `[0]` takes the head. -/
def openai_collect_tool_calls (message_tool_calls : Option (List OpenAIToolCall)) :
    List String :=
  match message_tool_calls with
  | none => []
  | some [] => []
  | some (c :: _) => [c.function.name]

/-- One chat message of a provider request. -/
structure ChatMessage where
  role : String
  content : String

/-- Request shape built by `create_anthropic_task` (lines 83-89): the system
prompt goes into the dedicated `system` field, and `messages` holds exactly the
single user message with the question. -/
structure AnthropicRequest where
  model : String
  system : String
  messages : List ChatMessage
  max_tokens : Nat

/-- Request construction of `create_anthropic_task`. -/
def create_anthropic_request (model_name system_prompt question : String) :
    AnthropicRequest :=
  { model := model_name
    system := system_prompt
    messages := [{ role := "user", content := question }]
    max_tokens := 2048 }

/-- One entry of `response.content` in an Anthropic response (only the fields
the harness reads). -/
structure AnthropicContent where
  type : String
  name : String

/-- Tool-name extraction of `create_anthropic_task` (lines 91-95):
`for content in response.content: if content.type == 'tool_use':
tool_calls.append(content.name)`. -/
def anthropic_collect_tool_calls (content : List AnthropicContent) : List String :=
  content.foldl
    (fun tool_calls c => if c.type = "tool_use" then tool_calls ++ [c.name] else tool_calls)
    []

/-! ### Tool-schema transforms (src/evals/run_evaluation.py lines 34-53)

Python dicts are heap objects; `deepcopy` versus reference sharing is the point
of claim C9, so the `inputSchema` object of each tool is modelled as a cell in
an explicit heap (`Heap`, a list of cells indexed by address).  The nested
structure of a JSON schema is abstracted into the single cell's value; what the
model tracks exactly is which transform allocates fresh cells and which shares
the input's cells. -/

/-- Heap address of a schema object. -/
abbrev Addr := Nat

/-- Heap of schema objects: the cell at index `a` is the object at address `a`;
allocation appends at the end. -/
abbrev Heap := List String

/-- One tool of the catalog (`{name, description, inputSchema}`); `inputSchema`
is a reference to a schema object. -/
structure Tool where
  name : String
  description : String
  inputSchema : Addr

/-- Nested `function` object of the OpenAI wire format. -/
structure OpenAIFunctionSchema where
  name : String
  description : String
  parameters : Addr

/-- One entry of the OpenAI wire format `{"type": "function", "function": …}`. -/
structure OpenAIToolSchema where
  type : String
  function : OpenAIFunctionSchema

/-- Embedding of `transform_tools_to_openai_format`: builds fresh wrapper dicts
but sets `parameters` to `tool["inputSchema"]`, i.e. the same reference — no
copy of the schema object is made, so the heap is returned unchanged and the
output shares the input's cells. -/
def transform_tools_to_openai_format (h : Heap) (tools : List Tool) :
    Heap × List OpenAIToolSchema :=
  (h,
   tools.map (fun tool =>
    { type := "function"
      function :=
        { name := tool.name
          description := tool.description
          parameters := tool.inputSchema } }))

/-- One entry of the Anthropic wire format `{name, description, input_schema}`. -/
structure AnthropicToolSchema where
  name : String
  description : String
  input_schema : Addr

/-- Embedding of `deepcopy(tools)` restricted to what the transform needs: each
tool's schema cell is read from the original heap `h0` and a copy of it is
allocated at the next free address, consecutively from `base`.  Returns the
newly allocated cells (in order) and the copied tools pointing at them. -/
def deepcopy_schemas (h0 : Heap) (base : Nat) : List Tool → Heap × List Tool
  | [] => ([], [])
  | t :: ts =>
    let rest := deepcopy_schemas h0 (base + 1) ts
    (h0.getD t.inputSchema "" :: rest.1, { t with inputSchema := base } :: rest.2)

/-- Embedding of `transform_tools_to_antrophic_format`: `t = deepcopy(tools)`
then `tool_["input_schema"] = tool_.pop("inputSchema")` on each copy — the
copies live in freshly allocated cells and the key is renamed on the copy. -/
def transform_tools_to_antrophic_format (h : Heap) (tools : List Tool) :
    Heap × List AnthropicToolSchema :=
  let copy := deepcopy_schemas h h.length tools
  (h ++ copy.1,
   copy.2.map (fun tool =>
    { name := tool.name
      description := tool.description
      input_schema := tool.inputSchema }))

/-! ### Experiment runner and threshold gate (src/evals/run_evaluation.py `main`) -/

/-- Per-model summary entry appended to `results` (the keys the gate reads:
`accuracy`, `correct`, `total`, `error`). -/
structure ModelResult where
  accuracy : ℚ
  correct : Nat
  total : Nat
  error : Option String

/-- Aggregation step of `main` (lines 173-176): `total_cases = len(evaluations_df)`,
`correct_cases = len(evaluations_df[evaluations_df['score'] > 0.5])`,
`accuracy = correct_cases / total_cases if total_cases > 0 else 0`.  The
evaluations dataframe is abstracted to its `score` column. -/
def aggregate (scores : List ℚ) : ModelResult :=
  let total_cases := scores.length
  let correct_cases := (scores.filter (fun s => decide (s > 0.5))).length
  let accuracy : ℚ := if total_cases > 0 then (correct_cases : ℚ) / (total_cases : ℚ) else 0
  { accuracy := accuracy, correct := correct_cases, total := total_cases, error := none }

/-- The two adapter variants the runner can construct. -/
inductive AdapterKind
  | openai
  | anthropic
deriving DecidableEq

/-- Adapter selection in `main` (lines 148-152): prefix dispatch on the model
name — `model_name.startswith("gpt")` picks the OpenAI task,
`model_name.startswith("claude")` the Anthropic task, anything else resolves to
nothing. -/
def resolve_task (model_name : String) : Option AdapterKind :=
  if pyStartsWith model_name "gpt" then some AdapterKind.openai
  else if pyStartsWith model_name "claude" then some AdapterKind.anthropic
  else none

/-- Oracle abstracting `run_experiment` + `experiment.get_evaluations()`: the
score column obtained for a given model name and adapter variant. -/
abbrev Experiment := String → AdapterKind → List ℚ

/-- One iteration of `main`'s model loop (lines 142-198): resolve the adapter;
an unknown model type is skipped and recorded with zero accuracy and the
explicit error, otherwise the experiment runs and its scores are aggregated. -/
def run_model (exper : Experiment) (model_name : String) : ModelResult :=
  match resolve_task model_name with
  | none => { accuracy := 0, correct := 0, total := 0, error := some "Unknown model type" }
  | some kind => aggregate (exper model_name kind)

/-- The whole model loop over `MODELS_TO_EVALUATE`. -/
def run_models (exper : Experiment) (models : List String) : List ModelResult :=
  models.map (run_model exper)

/-- Threshold gate of `main` (line 201):
`all(r.get('accuracy', 0) >= PASS_THRESHOLD for r in results if r.get('error') is None)`. -/
def all_passed (results : List ModelResult) (pass_threshold : ℚ) : Bool :=
  (results.filter (fun r => decide (r.error = none))).all
    (fun r => decide (r.accuracy ≥ pass_threshold))

/-- Exit code of the run: `return 0 if all_passed else 1` (line 209), passed to
`sys.exit` (line 218). -/
def main_exit_code (results : List ModelResult) (pass_threshold : ℚ) : Nat :=
  if all_passed results pass_threshold then 0 else 1

/-! ### Exception flow around the experiment loop (claim C6)

The provider call for one test case can raise (network / timeout / API
failure); a raising call is modelled as `Except.error`.  Nothing in the
repository's own code catches it: the task closures in
`create_openai_task` / `create_anthropic_task` have no handler, and the
try/except around the experiment in `main` (src/evals/run_evaluation.py lines
160 and 194-196) is commented out.  An exception arising at one test case
therefore propagates and aborts the traversal instead of being turned into a
per-case record. -/

/-- One test case paired with its stored expected record. -/
structure TestCase where
  question : String
  tool_calls : Option String

/-- Evaluation record for one (model, test case) pair. -/
structure EvaluationRecord where
  observed : List String
  score : ℚ

/-- Scoring of one completed provider call via the `tools_match` evaluator. -/
def score_case (tc : TestCase) (output : List String) : EvaluationRecord :=
  { observed := output, score := if tools_match ⟨tc.tool_calls⟩ output then 1 else 0 }

/-- Per-test-case experiment loop as the repository drives it, with no
exception handler installed at any scope: a task that raises on one case makes
the whole traversal return that error, producing no records for the remaining
cases. -/
def run_cases_uncaught (task : TestCase → Except String (List String))
    (cases : List TestCase) : Except String (List EvaluationRecord) :=
  cases.mapM (fun tc => (task tc).map (score_case tc))

/-- Concrete two-case dataset used to exercise the exception flow. -/
def twoCases : List TestCase :=
  [{ question := "q1", tool_calls := some "a" },
   { question := "q2", tool_calls := some "b" }]

/-- Concrete task whose provider call raises on the first test case only. -/
def failingFirstTask : TestCase → Except String (List String) :=
  fun tc => if tc.question = "q1" then Except.error "APITimeoutError" else Except.ok ["b"]

/-- Concrete experiment oracle: every experiment yields a single perfect score. -/
def oracleOne : Experiment := fun _ _ => [1]

/-- Concrete experiment oracle: every experiment yields no evaluations. -/
def oracleEmpty : Experiment := fun _ _ => []

/-! ### Lemmas about the sorting primitive -/

lemma char_toNat_inj {a b : Char} (h : a.toNat = b.toNat) : a = b :=
  Char.eq_of_val_eq (UInt32.ext h)

lemma lexLe_cons (a b : Char) (as bs : List Char) :
    lexLe (a :: as) (b :: bs) = true ↔
      (a.toNat < b.toNat ∨ (a.toNat = b.toNat ∧ lexLe as bs = true)) := by
  simp only [lexLe]
  by_cases h1 : a.toNat < b.toNat
  · simp [h1]
  · by_cases h2 : b.toNat < a.toNat
    · simp [h1, h2]; omega
    · have h3 : a.toNat = b.toNat := by omega
      simp [h1, h2, h3]

lemma lexLe_total : ∀ a b : List Char, lexLe a b = true ∨ lexLe b a = true
  | [], _ => Or.inl rfl
  | _ :: _, [] => Or.inr rfl
  | a :: as, b :: bs => by
    rw [lexLe_cons, lexLe_cons]
    rcases Nat.lt_trichotomy a.toNat b.toNat with h | h | h
    · exact Or.inl (Or.inl h)
    · rcases lexLe_total as bs with ih | ih
      · exact Or.inl (Or.inr ⟨h, ih⟩)
      · exact Or.inr (Or.inr ⟨h.symm, ih⟩)
    · exact Or.inr (Or.inl h)

lemma lexLe_trans : ∀ a b c : List Char,
    lexLe a b = true → lexLe b c = true → lexLe a c = true
  | [], _, _ => fun _ _ => rfl
  | _ :: _, [], _ => fun h _ => by simp [lexLe] at h
  | _ :: _, _ :: _, [] => fun _ h => by simp [lexLe] at h
  | a :: as, b :: bs, c :: cs => by
    rw [lexLe_cons, lexLe_cons, lexLe_cons]
    rintro (h1 | ⟨h1, h1r⟩) (h2 | ⟨h2, h2r⟩)
    · exact Or.inl (h1.trans h2)
    · exact Or.inl (h2 ▸ h1)
    · exact Or.inl (h1 ▸ h2)
    · exact Or.inr ⟨h1.trans h2, lexLe_trans as bs cs h1r h2r⟩

lemma lexLe_antisymm : ∀ a b : List Char,
    lexLe a b = true → lexLe b a = true → a = b
  | [], [] => fun _ _ => rfl
  | [], _ :: _ => fun _ h => by simp [lexLe] at h
  | _ :: _, [] => fun h _ => by simp [lexLe] at h
  | a :: as, b :: bs => by
    rw [lexLe_cons, lexLe_cons]
    rintro (h1 | ⟨h1, h1r⟩) (h2 | ⟨h2, h2r⟩) <;> try omega
    rw [char_toNat_inj h1, lexLe_antisymm as bs h1r h2r]

instance : IsTotal String (fun a b => strLe a b = true) :=
  ⟨fun a b => lexLe_total a.data b.data⟩

instance : IsTrans String (fun a b => strLe a b = true) :=
  ⟨fun a b c => lexLe_trans a.data b.data c.data⟩

lemma String.data_injective {a b : String} (h : a.data = b.data) : a = b := by
  cases a; cases b; exact congrArg String.mk h

instance : IsAntisymm String (fun a b => strLe a b = true) :=
  ⟨fun a b h1 h2 => String.data_injective (lexLe_antisymm a.data b.data h1 h2)⟩

lemma pySorted_perm (l : List String) : (pySorted l).Perm l :=
  List.perm_insertionSort _ l

lemma pySorted_eq_iff_perm (l₁ l₂ : List String) :
    pySorted l₁ = pySorted l₂ ↔ l₁.Perm l₂ := by
  constructor
  · intro h
    exact (pySorted_perm l₁).symm.trans (h ▸ pySorted_perm l₂)
  · intro h
    exact List.eq_of_perm_of_sorted
      ((pySorted_perm l₁).trans (h.trans (pySorted_perm l₂).symm))
      (List.sorted_insertionSort _ l₁) (List.sorted_insertionSort _ l₂)

/-! ### Lemmas about split, join and strip -/

lemma splitCS_cons2 (c d : Char) (rest : List Char) (h : ¬(c = ',' ∧ d = ' ')) :
    splitCS (c :: d :: rest) =
      match splitCS (d :: rest) with
      | [] => [[c]]
      | r :: rs => (c :: r) :: rs := by
  have he : splitCS (c :: d :: rest) =
      if c = ',' ∧ d = ' ' then [] :: splitCS rest
      else
        match splitCS (d :: rest) with
        | [] => [[c]]
        | r :: rs => (c :: r) :: rs := rfl
  rw [he, if_neg h]

lemma splitCS_sep (rest : List Char) : splitCS (',' :: ' ' :: rest) = [] :: splitCS rest := by
  have he : splitCS (',' :: ' ' :: rest) =
      if (',' : Char) = ',' ∧ (' ' : Char) = ' ' then [] :: splitCS rest
      else
        match splitCS (' ' :: rest) with
        | [] => [[(',' : Char)]]
        | r :: rs => ((',' : Char) :: r) :: rs := rfl
  rw [he, if_pos ⟨rfl, rfl⟩]

lemma splitCS_no_comma : ∀ l : List Char, (∀ c ∈ l, c ≠ ',') → splitCS l = [l] := by
  intro l
  induction l using splitCS.induct with
  | case1 => intro _; rfl
  | case2 c => intro _; rfl
  | case3 c d rest hcd _ =>
      intro h; exact absurd hcd.1 (h c (by simp))
  | case4 c d rest hcd hnil ih =>
      intro h
      have := ih (fun x hx => h x (List.mem_cons_of_mem c hx))
      rw [hnil] at this; cases this
  | case5 c d rest hcd r rs heq ih =>
      intro h
      have h2 := ih (fun x hx => h x (List.mem_cons_of_mem c hx))
      rw [heq] at h2
      injection h2 with h2a h2b
      rw [splitCS_cons2 c d rest hcd, heq, h2a, h2b]

lemma splitCS_append (m : List Char) : ∀ l : List Char, (∀ c ∈ l, c ≠ ',') →
    splitCS (l ++ ',' :: ' ' :: m) = l :: splitCS m
  | [], _ => by simpa using splitCS_sep m
  | [c], h => by
      have hc : c ≠ ',' := h c (by simp)
      have hcd : ¬(c = ',' ∧ (',' : Char) = ' ') := fun hx => hc hx.1
      rw [List.singleton_append, splitCS_cons2 c ',' (' ' :: m) hcd, splitCS_sep m]
  | c :: c2 :: l, h => by
      have hc : c ≠ ',' := h c (by simp)
      have hcd : ¬(c = ',' ∧ c2 = ' ') := fun hx => hc hx.1
      have ih := splitCS_append m (c2 :: l) (fun x hx => h x (List.mem_cons_of_mem c hx))
      show splitCS (c :: c2 :: (l ++ ',' :: ' ' :: m)) = (c :: c2 :: l) :: splitCS m
      rw [splitCS_cons2 c c2 (l ++ ',' :: ' ' :: m) hcd,
        show splitCS (c2 :: (l ++ ',' :: ' ' :: m)) = (c2 :: l) :: splitCS m from ih]

lemma splitCS_joinCS : ∀ (l : List Char) (ls : List (List Char)),
    (∀ x ∈ l :: ls, ∀ c ∈ x, c ≠ ',') →
    splitCS (joinCS (l :: ls)) = l :: ls
  | l, [], h => splitCS_no_comma l (h l (by simp))
  | l, l2 :: ls, h => by
      rw [show joinCS (l :: l2 :: ls) = l ++ ',' :: ' ' :: joinCS (l2 :: ls) from rfl]
      rw [splitCS_append (joinCS (l2 :: ls)) l (h l (by simp))]
      rw [splitCS_joinCS l2 ls (fun x hx => h x (List.mem_cons_of_mem l hx))]

lemma joinCS_ne_nil (l : List Char) (ls : List (List Char)) (h : l ≠ []) :
    joinCS (l :: ls) ≠ [] := by
  cases ls with
  | nil => exact h
  | cons l2 ls => simp [joinCS]

lemma string_mk_data (s : String) : String.mk s.data = s := rfl

lemma string_ne_empty_of_data_ne_nil {s : String} (h : s.data ≠ []) : s ≠ "" := by
  intro he; rw [he] at h; exact h rfl

lemma map_eq_self_of_eq {l : List String} {f : String → String}
    (h : ∀ a ∈ l, f a = a) : l.map f = l := by
  induction l with
  | nil => rfl
  | cons a l ih =>
      rw [List.map_cons, h a (by simp), ih (fun x hx => h x (List.mem_cons_of_mem a hx))]

/-! ### Lemmas about the threshold gate and the heap model -/

lemma all_passed_iff (results : List ModelResult) (t : ℚ) :
    all_passed results t = true ↔ ∀ r ∈ results, r.error = none → r.accuracy ≥ t := by
  unfold all_passed
  simp only [List.all_eq_true, List.mem_filter, decide_eq_true_eq, and_imp]

lemma anthropic_collect_go (content : List AnthropicContent) :
    ∀ acc : List String,
      content.foldl
          (fun tool_calls c =>
            if c.type = "tool_use" then tool_calls ++ [c.name] else tool_calls)
          acc
        = acc ++ (content.filter (fun c => decide (c.type = "tool_use"))).map
            (fun c => c.name) := by
  induction content with
  | nil => intro acc; simp
  | cons c cs ih =>
      intro acc
      by_cases hc : c.type = "tool_use"
      · simp [hc, ih, List.filter_cons]
      · simp [hc, ih, List.filter_cons]

lemma deepcopy_schemas_cells (h0 : Heap) : ∀ (ts : List Tool) (base : Nat),
    (deepcopy_schemas h0 base ts).1 = ts.map (fun t => h0.getD t.inputSchema "") := by
  intro ts
  induction ts with
  | nil => intro base; rfl
  | cons t ts ih => intro base; simp [deepcopy_schemas, ih]

lemma deepcopy_schemas_fresh (h0 : Heap) : ∀ (ts : List Tool) (base : Nat),
    ∀ t2 ∈ (deepcopy_schemas h0 base ts).2, base ≤ t2.inputSchema := by
  intro ts
  induction ts with
  | nil => intro base t2 ht2; cases ht2
  | cons t ts ih =>
      intro base t2 ht2
      rcases List.mem_cons.mp ht2 with h | h
      · rw [h]
      · exact Nat.le_of_succ_le (ih (base + 1) t2 h)

lemma deepcopy_schemas_reads (h0 : Heap) : ∀ (ts : List Tool) (pre : Heap),
    ((deepcopy_schemas h0 pre.length ts).2).map
        (fun t => (pre ++ (deepcopy_schemas h0 pre.length ts).1).getD t.inputSchema "")
      = ts.map (fun t => h0.getD t.inputSchema "") := by
  intro ts
  induction ts with
  | nil => intro pre; rfl
  | cons t ts ih =>
      intro pre
      show ({ t with inputSchema := pre.length } ::
              (deepcopy_schemas h0 (pre.length + 1) ts).2).map
            (fun t2 => (pre ++ h0.getD t.inputSchema "" ::
                (deepcopy_schemas h0 (pre.length + 1) ts).1).getD t2.inputSchema "")
          = (t :: ts).map (fun t2 => h0.getD t2.inputSchema "")
      rw [List.map_cons, List.map_cons]
      have hsplit : pre ++ h0.getD t.inputSchema "" ::
            (deepcopy_schemas h0 (pre.length + 1) ts).1
          = (pre ++ [h0.getD t.inputSchema ""]) ++
              (deepcopy_schemas h0 (pre.length + 1) ts).1 := by
        simp
      have hlen : pre.length + 1 = (pre ++ [h0.getD t.inputSchema ""]).length := by
        simp
      congr 1
      · rw [List.getD_eq_getElem?_getD, List.getElem?_append_right (by simp)]
        simp
      · rw [hsplit, hlen]
        exact ih (pre ++ [h0.getD t.inputSchema ""])

/-! ### Claim theorems -/

/-- C1: `tools_match` returns true iff the multiset of expected tool names
(parsed from the record's comma-and-space-joined `tool_calls` string, with
whitespace-only or empty entries excluded) equals the observed list as a
multiset — order-insensitive, duplicates significant,
`matches([], []) = true`, and any extra, missing or wrong tool yields false. -/
theorem C1_tools_match_multiset_semantics :
    (∀ (expected : ExpectedRecord) (output : List String),
        tools_match expected output = true ↔
          (↑(parse_expected_tools (expected.tool_calls.getD "")) : Multiset String)
            = ↑output)
    ∧ tools_match ⟨some "a, b"⟩ ["b", "a"] = true
    ∧ tools_match ⟨some "a, a"⟩ ["a"] = false
    ∧ tools_match ⟨some ""⟩ [] = true
    ∧ tools_match ⟨some "a"⟩ [] = false
    ∧ tools_match ⟨some "a, b"⟩ ["a", "b", "b"] = false
    ∧ tools_match ⟨some "a, b"⟩ ["a", "c"] = false := by
  refine ⟨fun expected output => ?_, by decide, by decide, by decide, by decide,
    by decide, by decide⟩
  rw [show tools_match expected output
      = decide (pySorted (parse_expected_tools (expected.tool_calls.getD ""))
          = pySorted output) from rfl]
  rw [decide_eq_true_eq]
  exact (pySorted_eq_iff_perm _ _).trans Multiset.coe_eq_coe.symm

/-- C10: for tool names that are non-empty, comma-free and have no leading or
trailing whitespace, joining them with `', '` (as `create_dataset` builds the
`tool_calls` field) and matching the resulting record against the original
list succeeds — the matcher's split on `', '` inverts the creator's join. -/
theorem C10_join_split_roundtrip (names : List String)
    (h : ∀ s ∈ names, s ≠ "" ∧ (∀ c ∈ s.data, c ≠ ',') ∧ pyStrip s = s) :
    tools_match ⟨some (pyJoin names)⟩ names = true := by
  cases names with
  | nil => decide
  | cons n ns =>
    have hn := h n (by simp)
    have hdata : n.data ≠ [] := fun hd => hn.1 (String.data_injective (hd.trans rfl))
    have hne : pyJoin (n :: ns) ≠ "" := by
      apply string_ne_empty_of_data_ne_nil
      show joinCS ((n :: ns).map String.data) ≠ []
      exact joinCS_ne_nil n.data (ns.map String.data) hdata
    have hcomma : ∀ x ∈ n.data :: (ns.map String.data), ∀ c ∈ x, c ≠ ',' := by
      intro x hx c hc
      rcases List.mem_cons.mp hx with hx1 | hx2
      · exact hn.2.1 c (hx1 ▸ hc)
      · obtain ⟨s, hs, hsx⟩ := List.mem_map.mp hx2
        exact (h s (List.mem_cons_of_mem n hs)).2.1 c (hsx ▸ hc)
    have hsplit : pySplitCS (pyJoin (n :: ns)) = n :: ns := by
      show (splitCS (joinCS (n.data :: (ns.map String.data)))).map String.mk = n :: ns
      rw [splitCS_joinCS n.data (ns.map String.data) hcomma]
      rw [List.map_cons, string_mk_data, List.map_map]
      exact congrArg (n :: ·) (map_eq_self_of_eq (fun a _ => string_mk_data a))
    have hparse : parse_expected_tools (pyJoin (n :: ns)) = n :: ns := by
      show ((if pyJoin (n :: ns) ≠ "" then pySplitCS (pyJoin (n :: ns)) else []).filter
          (fun tool => pyStrip tool ≠ "")).map pyStrip = n :: ns
      rw [if_pos hne, hsplit]
      rw [List.filter_eq_self.mpr (fun a ha => decide_eq_true (by
        rw [(h a ha).2.2]; exact (h a ha).1))]
      exact map_eq_self_of_eq (fun a ha => (h a ha).2.2)
    show decide (pySorted (parse_expected_tools ((some (pyJoin (n :: ns))).getD ""))
        = pySorted (n :: ns)) = true
    rw [show (some (pyJoin (n :: ns))).getD "" = pyJoin (n :: ns) from rfl, hparse]
    exact decide_eq_true rfl

/-- Witness for C10 at the concrete name list `["b", "a"]`. -/
theorem C10_join_split_roundtrip_witness :
    (∀ s ∈ ["b", "a"], s ≠ "" ∧ (∀ c ∈ s.data, c ≠ ',') ∧ pyStrip s = s)
    ∧ tools_match ⟨some (pyJoin ["b", "a"])⟩ ["b", "a"] = true :=
  ⟨by decide, C10_join_split_roundtrip ["b", "a"] (by decide)⟩

/-- C2 counterexample: a run whose single configured model resolves to no
adapter — every model in `results` carries an error, so no model at all could
be evaluated — yet `all(...)` over the empty filtered generator is vacuously
true and the process exit code is `0`, not `1` as the claim states. -/
theorem C2_counterexample_all_models_errored :
    (∀ r ∈ run_models oracleOne ["o3-mini"], r.error ≠ none)
    ∧ main_exit_code (run_models oracleOne ["o3-mini"]) 1 = 0 := by
  constructor
  · decide
  · rfl

/-- C2 (amended): the exit code is `0` iff every non-errored model's accuracy
meets the threshold; when every configured model carries an error the
conjunction is vacuous and the exit code is `0` (not `1`). -/
theorem C2_exit_code_iff_non_errored_pass (results : List ModelResult)
    (pass_threshold : ℚ) :
    main_exit_code results pass_threshold = 0 ↔
      ∀ r ∈ results, r.error = none → r.accuracy ≥ pass_threshold := by
  rw [show main_exit_code results pass_threshold
      = if all_passed results pass_threshold then 0 else 1 from rfl]
  cases hb : all_passed results pass_threshold with
  | false =>
      exact iff_of_false (by simp)
        (fun hr => by rw [← all_passed_iff results pass_threshold] at hr
                      rw [hb] at hr; cases hr)
  | true => exact iff_of_true rfl ((all_passed_iff results pass_threshold).mp hb)

/-- C3: a model passes the gate iff its error is null and its accuracy meets
the threshold; the verdict is the AND over exactly the error-free models, and
an errored summary never contributes to it (dropping it from the list leaves
the verdict unchanged). -/
theorem C3_threshold_gate (results pre post : List ModelResult) (r2 : ModelResult)
    (t : ℚ) (h0 : 0 ≤ t) (h1 : t ≤ 1) (herr : r2.error ≠ none) :
    (all_passed results t = true ↔ ∀ r ∈ results, r.error = none → r.accuracy ≥ t)
    ∧ all_passed (pre ++ r2 :: post) t = all_passed (pre ++ post) t := by
  refine ⟨all_passed_iff results t, ?_⟩
  unfold all_passed
  rw [List.filter_append, List.filter_append, List.filter_cons,
    if_neg (by simp [herr])]

/-- Witness for C3 with threshold `1`, a passing summary and an errored one. -/
theorem C3_threshold_gate_witness :
    (0 : ℚ) ≤ 1 ∧ (1 : ℚ) ≤ 1
    ∧ (ModelResult.mk 0 0 0 (some "Unknown model type")).error ≠ none
    ∧ all_passed ([ModelResult.mk 1 3 3 none]
        ++ ModelResult.mk 0 0 0 (some "Unknown model type") :: []) 1
      = all_passed ([ModelResult.mk 1 3 3 none] ++ []) 1 :=
  ⟨zero_le_one, le_refl 1, fun hx => Option.noConfusion hx,
    (C3_threshold_gate [] [ModelResult.mk 1 3 3 none] []
      (ModelResult.mk 0 0 0 (some "Unknown model type")) 1 zero_le_one (le_refl 1)
      (fun hx => Option.noConfusion hx)).2⟩

/-- C4: a model name matching neither prefix is skipped entirely — its summary
is the explicit zero record with error `"Unknown model type"`, independent of
the experiment oracle (no provider call is made), the loop still produces
results for every other model, and the gate verdict equals the verdict over
the remaining models alone. -/
theorem C4_unknown_model_type (exper exper2 : Experiment)
    (models_pre models_post : List String) (name : String) (t : ℚ)
    (h : resolve_task name = none) :
    run_model exper name
        = { accuracy := 0, correct := 0, total := 0, error := some "Unknown model type" }
    ∧ run_model exper name = run_model exper2 name
    ∧ run_models exper (models_pre ++ name :: models_post)
        = run_models exper models_pre
            ++ run_model exper name :: run_models exper models_post
    ∧ all_passed (run_models exper (models_pre ++ name :: models_post)) t
        = all_passed (run_models exper (models_pre ++ models_post)) t := by
  have h1 : run_model exper name
      = { accuracy := 0, correct := 0, total := 0, error := some "Unknown model type" } := by
    unfold run_model; rw [h]
  have h2 : run_model exper2 name
      = { accuracy := 0, correct := 0, total := 0, error := some "Unknown model type" } := by
    unfold run_model; rw [h]
  refine ⟨h1, h1.trans h2.symm, ?_, ?_⟩
  · unfold run_models; rw [List.map_append, List.map_cons]
  · unfold run_models all_passed
    rw [List.map_append, List.map_cons, List.map_append, List.filter_append,
      List.filter_append, List.filter_cons, if_neg (by simp [h1])]

/-- Witness for C4 at the unknown model name `"o3-mini"`. -/
theorem C4_unknown_model_type_witness :
    resolve_task "o3-mini" = none
    ∧ (run_model oracleOne "o3-mini"
          = { accuracy := 0, correct := 0, total := 0, error := some "Unknown model type" }
        ∧ run_model oracleOne "o3-mini" = run_model oracleEmpty "o3-mini"
        ∧ run_models oracleOne (["gpt-4o"] ++ "o3-mini" :: ["claude-3-5-sonnet"])
            = run_models oracleOne ["gpt-4o"]
                ++ run_model oracleOne "o3-mini" :: run_models oracleOne ["claude-3-5-sonnet"]
        ∧ all_passed (run_models oracleOne (["gpt-4o"] ++ "o3-mini" :: ["claude-3-5-sonnet"])) 1
            = all_passed (run_models oracleOne (["gpt-4o"] ++ ["claude-3-5-sonnet"])) 1) :=
  ⟨by decide, C4_unknown_model_type oracleOne oracleEmpty ["gpt-4o"] ["claude-3-5-sonnet"]
    "o3-mini" 1 (by decide)⟩

/-- C5: aggregation counts `correct` as the records with score above `0.5`,
`total` as all records, and sets `accuracy = correct / total` only when
`total > 0`, returning `0` for an empty record set — no division by zero. -/
theorem C5_aggregation (scores : List ℚ) :
    (aggregate scores).correct = scores.countP (fun s => decide (s > 0.5))
    ∧ (aggregate scores).total = scores.length
    ∧ (0 < scores.length →
        (aggregate scores).accuracy
          = ((aggregate scores).correct : ℚ) / ((aggregate scores).total : ℚ))
    ∧ (scores.length = 0 → (aggregate scores).accuracy = 0) := by
  refine ⟨?_, rfl, ?_, ?_⟩
  · simp [aggregate, List.countP_eq_length_filter]
  · intro hpos
    show (if 0 < scores.length
        then ((scores.filter (fun s => decide (s > 0.5))).length : ℚ) / (scores.length : ℚ)
        else 0)
      = ((aggregate scores).correct : ℚ) / ((aggregate scores).total : ℚ)
    rw [if_pos hpos]; rfl
  · intro hz
    show (if 0 < scores.length
        then ((scores.filter (fun s => decide (s > 0.5))).length : ℚ) / (scores.length : ℚ)
        else 0) = 0
    rw [if_neg (by omega)]

/-- Witness for C5 at the singleton score list `[1]`. -/
theorem C5_aggregation_witness :
    0 < ([(1 : ℚ)]).length
    ∧ (aggregate [(1 : ℚ)]).accuracy
        = ((aggregate [(1 : ℚ)]).correct : ℚ) / ((aggregate [(1 : ℚ)]).total : ℚ) :=
  ⟨by decide, (C5_aggregation [(1 : ℚ)]).2.2.1 (by decide)⟩

/-- C6: with the repository's exception handling commented out, a provider
call raising on the first of two test cases makes the per-model evaluation
return the error — zero records are produced instead of one per test case, so
the remaining case of the model (and the remaining models) are not scored. -/
theorem C6_uncaught_exception_aborts :
    run_cases_uncaught failingFirstTask twoCases = Except.error "APITimeoutError"
    ∧ twoCases.length = 2
    ∧ (∀ recs : List EvaluationRecord,
        run_cases_uncaught failingFirstTask twoCases ≠ Except.ok recs) := by
  refine ⟨rfl, rfl, fun recs h => ?_⟩
  rw [show run_cases_uncaught failingFirstTask twoCases
      = Except.error "APITimeoutError" from rfl] at h
  cases h

/-- C7: the OpenAI-style adapter returns no name when the response carries no
tool calls and otherwise exactly the first invocation's name — later parallel
invocations are dropped. -/
theorem C7_openai_first_invocation_only :
    (∀ tcs : Option (List OpenAIToolCall),
        openai_collect_tool_calls tcs
          = ((tcs.getD []).take 1).map (fun c => c.function.name)
        ∧ (openai_collect_tool_calls tcs).length ≤ 1)
    ∧ openai_collect_tool_calls none = []
    ∧ openai_collect_tool_calls (some []) = []
    ∧ openai_collect_tool_calls
        (some [⟨⟨"search-actors"⟩⟩, ⟨⟨"fetch-actor-details"⟩⟩]) = ["search-actors"] := by
  refine ⟨fun tcs => ?_, rfl, rfl, rfl⟩
  rcases tcs with _ | (_ | ⟨c, cs⟩)
  · exact ⟨rfl, by simp [openai_collect_tool_calls]⟩
  · exact ⟨rfl, by simp [openai_collect_tool_calls]⟩
  · exact ⟨rfl, by simp [openai_collect_tool_calls]⟩

/-- C8: the Anthropic-style adapter collects the name of every `tool_use`
content entry in response order (not just the first), and its request carries
the system prompt in the dedicated `system` field while the message list holds
only the single user message. -/
theorem C8_anthropic_all_calls_separate_system :
    (∀ content : List AnthropicContent,
        anthropic_collect_tool_calls content
          = (content.filter (fun c => decide (c.type = "tool_use"))).map (fun c => c.name))
    ∧ anthropic_collect_tool_calls
        [⟨"tool_use", "search-actors"⟩, ⟨"text", ""⟩, ⟨"tool_use", "fetch-actor-details"⟩]
        = ["search-actors", "fetch-actor-details"]
    ∧ (∀ model_name system_prompt question : String,
        (create_anthropic_request model_name system_prompt question).system = system_prompt
        ∧ (create_anthropic_request model_name system_prompt question).messages
            = [{ role := "user", content := question }]
        ∧ ∀ msg ∈ (create_anthropic_request model_name system_prompt question).messages,
            msg.role ≠ "system") := by
  refine ⟨fun content => by simpa using anthropic_collect_go content [], rfl,
    fun model_name system_prompt question => ⟨rfl, rfl, fun msg hmsg => ?_⟩⟩
  have : msg = { role := "user", content := question } := by
    simpa [create_anthropic_request] using hmsg
  rw [this]
  show ("user" : String) ≠ "system"
  decide

/-- C9 counterexample: `transform_tools_to_openai_format` performs no copy of
the schema object — on a one-tool catalog whose schema lives at address `0`,
the output's `parameters` is that same address `0`, inside the input heap, so
the call does not operate on an independent deep copy as the claim states. -/
theorem C9_counterexample_openai_shares_schema :
    (transform_tools_to_openai_format ["schemaA"] [⟨"x", "d", 0⟩]).2.map
        (fun s => s.function.parameters) = [0]
    ∧ ¬ (∀ s ∈ (transform_tools_to_openai_format ["schemaA"] [⟨"x", "d", 0⟩]).2,
          (["schemaA"] : Heap).length ≤ s.function.parameters) := by
  exact ⟨rfl, by decide⟩

/-- C9 (amended): neither transform mutates the input catalog (the OpenAI
transform leaves the heap untouched, the Anthropic one only appends fresh
cells, preserving every input cell), an empty catalog yields an empty schema
list for both, the Anthropic transform is a genuine deep copy (all its output
addresses are fresh and read back to exactly the original schema values, so
running both transforms in sequence leaves each internally consistent with the
original) — but the OpenAI transform shares each schema: its `parameters`
addresses are exactly the input catalog's `inputSchema` addresses, not fresh
copies. -/
theorem C9_transforms_amended (h : Heap) (tools : List Tool) :
    (transform_tools_to_openai_format h tools).1 = h
    ∧ (transform_tools_to_openai_format h []).2 = []
    ∧ (transform_tools_to_antrophic_format h []).2 = []
    ∧ ((transform_tools_to_antrophic_format h tools).1).take h.length = h
    ∧ (∀ s ∈ (transform_tools_to_antrophic_format h tools).2,
        h.length ≤ s.input_schema)
    ∧ (transform_tools_to_antrophic_format h tools).2.map
        (fun s => ((transform_tools_to_antrophic_format h tools).1).getD s.input_schema "")
      = tools.map (fun t => h.getD t.inputSchema "")
    ∧ transform_tools_to_antrophic_format
        (transform_tools_to_openai_format h tools).1 tools
      = transform_tools_to_antrophic_format h tools
    ∧ (transform_tools_to_openai_format h tools).2.map (fun s => s.function.parameters)
      = tools.map (fun t => t.inputSchema) := by
  refine ⟨rfl, rfl, rfl, ?_, ?_, ?_, rfl, ?_⟩
  · show (h ++ (deepcopy_schemas h h.length tools).1).take h.length = h
    exact List.take_left h _
  · intro s hs
    show h.length ≤ s.input_schema
    obtain ⟨t2, ht2, hts⟩ := List.mem_map.mp hs
    rw [← hts]
    exact deepcopy_schemas_fresh h tools h.length t2 ht2
  · show ((deepcopy_schemas h h.length tools).2.map (fun tool =>
        AnthropicToolSchema.mk tool.name tool.description tool.inputSchema)).map
          (fun s => (h ++ (deepcopy_schemas h h.length tools).1).getD s.input_schema "")
      = tools.map (fun t => h.getD t.inputSchema "")
    rw [List.map_map]
    exact deepcopy_schemas_reads h tools h
  · show (tools.map (fun tool => OpenAIToolSchema.mk "function"
        (OpenAIFunctionSchema.mk tool.name tool.description tool.inputSchema))).map
          (fun s => s.function.parameters)
      = tools.map (fun t => t.inputSchema)
    rw [List.map_map]
    rfl
